import Mathlib

/-!
Verification development for the `passkey-test` repository.

The visible code is the CDK construct `CredentialsApi`
(`cdk/lib/credentials-api.ts`), which provisions two Lambda functions
(registration and discoverable-credential authentication), wires their
environment variables and IAM grants, and exposes them behind an HTTP API.
Strings are embedded as `List Char`; the JavaScript regex replacements
`replace(/\/$/, '')` and `replace(/^\//, '')` (anchored, so they replace at
most one occurrence) are embedded as `stripTrailingSlash` and
`stripLeadingSlash`.

The Rust ceremony core (session store, credential store) is not part of the
visible sources; the definitions for it further below are modelled from the
spec and say so in their doc comments.
-/

/-- Strings of the embedded program, as lists of characters. -/
abbrev Str := List Char

/-- Embedding of the JavaScript expression `s.replace(/\/$/, '')`:
the regex is anchored at the end, so at most one trailing `'/'` is removed. -/
def stripTrailingSlash (s : Str) : Str :=
  if s.getLast? = some '/' then s.dropLast else s

/-- Embedding of the JavaScript expression `s.replace(/^\//, '')`:
the regex is anchored at the start, so at most one leading `'/'` is removed. -/
def stripLeadingSlash (s : Str) : Str :=
  match s with
  | [] => []
  | c :: rest => if c = '/' then rest else c :: rest

/-- The props record injected into the `CredentialsApi` construct.  The
construct only ever reads the attributes modelled here:
`props.basePath`, `props.parameters.rpOriginParameter.parameterName`,
`props.sessionStore.sessionTable.tableName`, `props.userPool.userPool.userPoolId`,
`props.userPool.credentialTable.tableName`, and `props.allowOrigins`. -/
structure CredentialsApiProps where
  basePath : Str
  rpOriginParameterName : Str
  sessionTableName : Str
  userPoolId : Str
  credentialTableName : Str
  allowOrigins : List Str
deriving DecidableEq

/-- `registrationBasePath` as computed in the constructor:
the configured base path with one trailing slash removed, then
`"/registration/"` appended. -/
def registrationBasePath (p : CredentialsApiProps) : Str :=
  stripTrailingSlash p.basePath ++ "/registration/".toList

/-- `discoverableBasePath` as computed in the constructor. -/
def discoverableBasePath (p : CredentialsApiProps) : Str :=
  stripTrailingSlash p.basePath ++ "/discoverable/".toList

/-- The environment object passed to the `RegistrationLambda` `RustFunction`. -/
def registrationEnvironment (p : CredentialsApiProps) : List (Str × Str) :=
  [ ("BASE_PATH".toList, registrationBasePath p),
    ("SESSION_TABLE_NAME".toList, p.sessionTableName),
    ("USER_POOL_ID".toList, p.userPoolId),
    ("CREDENTIAL_TABLE_NAME".toList, p.credentialTableName),
    ("RP_ORIGIN_PARAMETER_PATH".toList, p.rpOriginParameterName) ]

/-- The environment object passed to the `DiscoverableLambda` `RustFunction`. -/
def discoverableEnvironment (p : CredentialsApiProps) : List (Str × Str) :=
  [ ("BASE_PATH".toList, discoverableBasePath p),
    ("SESSION_TABLE_NAME".toList, p.sessionTableName),
    ("RP_ORIGIN_PARAMETER_PATH".toList, p.rpOriginParameterName) ]

/-- Environment lookup: first binding of the key wins, as in a JS object
literal read back by the Lambda. -/
def lookupEnv (env : List (Str × Str)) (k : Str) : Option Str :=
  match env with
  | [] => none
  | (k', v) :: rest => if k' = k then some v else lookupEnv rest k

/-- IAM grants issued by the constructor, in source order. -/
inductive Grant where
  | parameterRead (parameterName : Str)
  | tableReadWriteData (tableName : Str)
  | userPoolGrant (userPoolId : Str) (actions : List Str)
deriving DecidableEq

/-- Grants issued to the registration Lambda:
`parameters.rpOriginParameter.grantRead`,
`sessionStore.sessionTable.grantReadWriteData`,
`userPool.credentialTable.grantReadWriteData`, and
`userPool.userPool.grant(..., 'cognito-idp:AdminCreateUser',
'cognito-idp:AdminSetUserPassword', 'cognito-idp:ListUsers')`. -/
def registrationGrants (p : CredentialsApiProps) : List Grant :=
  [ .parameterRead p.rpOriginParameterName,
    .tableReadWriteData p.sessionTableName,
    .tableReadWriteData p.credentialTableName,
    .userPoolGrant p.userPoolId
      [ "cognito-idp:AdminCreateUser".toList,
        "cognito-idp:AdminSetUserPassword".toList,
        "cognito-idp:ListUsers".toList ] ]

/-- Grants issued to the discoverable Lambda:
`parameters.rpOriginParameter.grantRead` and
`sessionStore.sessionTable.grantReadWriteData` only. -/
def discoverableGrants (p : CredentialsApiProps) : List Grant :=
  [ .parameterRead p.rpOriginParameterName,
    .tableReadWriteData p.sessionTableName ]

/-- HTTP methods of the API Gateway v2 model (the ones the construct could
mention). -/
inductive HttpMethod where
  | GET | POST | PUT | DELETE | OPTIONS
deriving DecidableEq

/-- Which Lambda a route's `HttpLambdaIntegration` targets. -/
inductive LambdaTarget where
  | registration | discoverable
deriving DecidableEq

/-- One `addRoutes` call of the construct. -/
structure Route where
  path : Str
  methods : List HttpMethod
  integration : LambdaTarget
deriving DecidableEq

/-- The greedy path-variable segment `{proxy+}` appearing at the end of both
route paths. -/
def proxySegment : Str :=
  ['\x7b', 'p', 'r', 'o', 'x', 'y', '+', '\x7d']

/-- The two routes registered on the HTTP API, in source order. -/
def apiRoutes (p : CredentialsApiProps) : List Route :=
  [ ⟨registrationBasePath p ++ proxySegment, [.POST], .registration⟩,
    ⟨discoverableBasePath p ++ proxySegment, [.POST], .discoverable⟩ ]

/-- A route ending in the greedy `{proxy+}` segment matches a request path
exactly when the part before `{proxy+}` is a prefix of the request path and
the captured remainder is non-empty. -/
def proxyRouteMatches (routePath requestPath : Str) : Prop :=
  ∃ base suffix : Str,
    suffix ≠ [] ∧ routePath = base ++ proxySegment ∧ requestPath = base ++ suffix

/-- The `basePath` getter: `props.basePath.replace(/\/$/, '')`. -/
def basePathGetter (p : CredentialsApiProps) : Str :=
  stripTrailingSlash p.basePath

/-- The `internalUrl` getter:
`` `${this.credentialsApi.defaultStage!.url}${this.props.basePath.replace(/^\//, '')}` ``,
with the default stage URL passed in as `stageUrl` (it is produced by AWS at
deployment time, outside this code). -/
def internalUrl (stageUrl : Str) (p : CredentialsApiProps) : Str :=
  stageUrl ++ stripLeadingSlash p.basePath

/-- Modelled from the spec: the Session entity of the ceremony core (the
Rust Lambda bodies are not among the visible sources; only `Cargo.toml` and
the CDK wiring are).  Opaque tokens and byte strings are abstracted as
natural numbers; `state` is the spec's {Pending, Consumed}. -/
inductive SessionState where
  | Pending | Consumed
deriving DecidableEq

/-- Modelled from the spec: one in-flight ceremony session. -/
structure Session where
  id : Nat
  challenge : Nat
  userHandle : Option Nat
  createdAt : Nat
  expiresAt : Nat
  state : SessionState
deriving DecidableEq

/-- Modelled from the spec: the error taxonomy of `consume`. -/
inductive SessionError where
  | SessionNotFound | SessionExpired | SessionAlreadyConsumed
deriving DecidableEq

/-- Modelled from the spec: the session table, looked up by session id. -/
def findSession (tbl : List Session) (id : Nat) : Option Session :=
  tbl.find? (fun s => s.id == id)

/-- Replace every record with the given id (ids are unique per the spec, so
this is the conditional update of the single matching record). -/
def setSession (tbl : List Session) (id : Nat) (s' : Session) : List Session :=
  tbl.map (fun s => if s.id == id then s' else s)

/-- Modelled from the spec: `consume(id)`, the atomic read-and-transition of
§4.1.  An absent id is `SessionNotFound`; per the §3 invariant ("a session
transitions Pending→Consumed exactly once; any further consumption attempt
fails") and §8 ("a second call fails with `SessionAlreadyConsumed`"), an
already-consumed session answers `SessionAlreadyConsumed`; an expired
pending session answers `SessionExpired`.  Returns the consumed session and
the updated table, or the unchanged table on error. -/
def consume (tbl : List Session) (now : Nat) (id : Nat) :
    Except SessionError Session × List Session :=
  match findSession tbl id with
  | none => (.error .SessionNotFound, tbl)
  | some s =>
    if s.state = SessionState.Consumed then (.error .SessionAlreadyConsumed, tbl)
    else if s.expiresAt ≤ now then (.error .SessionExpired, tbl)
    else
      let s' := { s with state := SessionState.Consumed }
      (.ok s', setSession tbl id s')

/-- Modelled from the spec: one registered credential of the Credential
Store; key material is abstracted as a number, `signCount` is the
authenticator counter. -/
structure Credential where
  credentialId : Nat
  userId : Nat
  publicKey : Nat
  signCount : Nat
deriving DecidableEq

/-- Modelled from the spec: errors of `update_sign_count`. -/
inductive CredentialError where
  | UnknownCredential | StaleSignCount
deriving DecidableEq

/-- Modelled from the spec: `find_by_id` on the credential table. -/
def findCredential (tbl : List Credential) (id : Nat) : Option Credential :=
  tbl.find? (fun c => c.credentialId == id)

/-- Modelled from the spec: `update_sign_count(credential_id, new_count)`
of §4.2: "must reject (not silently clamp) an update where
`new_count <= current sign_count` unless both are `0`".  Returns the
updated table on success and the unchanged table on rejection. -/
def updateSignCount (tbl : List Credential) (id : Nat) (newCount : Nat) :
    Except CredentialError Unit × List Credential :=
  match findCredential tbl id with
  | none => (.error .UnknownCredential, tbl)
  | some c =>
    if newCount ≤ c.signCount ∧ ¬(newCount = 0 ∧ c.signCount = 0) then
      (.error .StaleSignCount, tbl)
    else
      (.ok (), tbl.map (fun x =>
        if x.credentialId == id then { x with signCount := newCount } else x))

/-- A concrete props record used to evaluate the construct on one input. -/
def propsA : CredentialsApiProps :=
  ⟨"/auth".toList, "rp-param-a".toList, "sessions-a".toList,
    "pool-a".toList, "credentials-a".toList, []⟩

/-- A second concrete props record, differing from `propsA` in every
injected store and directory location. -/
def propsB : CredentialsApiProps :=
  ⟨"/auth".toList, "rp-param-b".toList, "sessions-b".toList,
    "pool-b".toList, "credentials-b".toList, []⟩

/-- Like `propsA` but with one trailing slash appended to the base path. -/
def propsC : CredentialsApiProps :=
  ⟨"/auth/".toList, "rp-param-a".toList, "sessions-a".toList,
    "pool-a".toList, "credentials-a".toList, []⟩

/-- A props record whose base path is the single character `'/'`. -/
def propsRoot : CredentialsApiProps :=
  ⟨['/'], "rp-param-a".toList, "sessions-a".toList,
    "pool-a".toList, "credentials-a".toList, []⟩

/-- A props record whose base path ends in two slashes. -/
def propsDoubleSlash : CredentialsApiProps :=
  ⟨"/a//".toList, "rp-param-a".toList, "sessions-a".toList,
    "pool-a".toList, "credentials-a".toList, []⟩

/-- A props record whose base path both starts and ends with a slash. -/
def propsApp : CredentialsApiProps :=
  ⟨"/app/".toList, "rp-param-a".toList, "sessions-a".toList,
    "pool-a".toList, "credentials-a".toList, []⟩

/-- The configuration-supply property claimed in C4, following the spec's
words (§6): the environment supplies the session-store location, the
credential-store location, and the relying-party origin value.  (The
claimed fourth item, a session TTL, has no counterpart anywhere in the
construct, so the claim is tested on the three items that do exist.) -/
def claimedSuppliesAbstractedConfig (env : List (Str × Str)) (p : CredentialsApiProps) : Prop :=
  p.sessionTableName ∈ env.map Prod.snd ∧
  p.credentialTableName ∈ env.map Prod.snd ∧
  p.rpOriginParameterName ∈ env.map Prod.snd

/-! ## General lemmas about the embedded string operations -/

theorem stripTrailingSlash_concat (s : Str) :
    stripTrailingSlash (s ++ ['/']) = s := by
  simp [stripTrailingSlash]

theorem stripTrailingSlash_of_getLast?_ne (s : Str) (h : s.getLast? ≠ some '/') :
    stripTrailingSlash s = s := by
  simp [stripTrailingSlash, h]

/-! ## Evaluation lemmas for environment lookups -/

theorem lookupEnv_registration_SESSION (p : CredentialsApiProps) :
    lookupEnv (registrationEnvironment p) ("SESSION_TABLE_NAME".toList) =
      some p.sessionTableName := rfl

theorem lookupEnv_registration_USER_POOL (p : CredentialsApiProps) :
    lookupEnv (registrationEnvironment p) ("USER_POOL_ID".toList) =
      some p.userPoolId := rfl

theorem lookupEnv_registration_CREDENTIAL (p : CredentialsApiProps) :
    lookupEnv (registrationEnvironment p) ("CREDENTIAL_TABLE_NAME".toList) =
      some p.credentialTableName := rfl

theorem lookupEnv_registration_RP_ORIGIN (p : CredentialsApiProps) :
    lookupEnv (registrationEnvironment p) ("RP_ORIGIN_PARAMETER_PATH".toList) =
      some p.rpOriginParameterName := rfl

theorem lookupEnv_registration_BASE (p : CredentialsApiProps) :
    lookupEnv (registrationEnvironment p) ("BASE_PATH".toList) =
      some (registrationBasePath p) := rfl

theorem lookupEnv_discoverable_SESSION (p : CredentialsApiProps) :
    lookupEnv (discoverableEnvironment p) ("SESSION_TABLE_NAME".toList) =
      some p.sessionTableName := rfl

theorem lookupEnv_discoverable_RP_ORIGIN (p : CredentialsApiProps) :
    lookupEnv (discoverableEnvironment p) ("RP_ORIGIN_PARAMETER_PATH".toList) =
      some p.rpOriginParameterName := rfl

theorem lookupEnv_discoverable_BASE (p : CredentialsApiProps) :
    lookupEnv (discoverableEnvironment p) ("BASE_PATH".toList) =
      some (discoverableBasePath p) := rfl

/-! ## Claims about the CDK construct -/

/-- C3: the spec's discoverable finish operation must look `credential_id`
up in the Credential Store and advance its sign count, yet the provisioned
discoverable Lambda receives no credential-table environment variable and
its grants are exactly a read grant on the relying-party-origin parameter
and a read/write grant on the session table — no credential-table grant.
(The code therefore contradicts the spec's requirement; recorded as a code
bug.) -/
theorem discoverable_lambda_missing_credential_store (p : CredentialsApiProps) :
    lookupEnv (discoverableEnvironment p) ("CREDENTIAL_TABLE_NAME".toList) = none ∧
    (discoverableEnvironment p).map Prod.fst =
      ["BASE_PATH".toList, "SESSION_TABLE_NAME".toList, "RP_ORIGIN_PARAMETER_PATH".toList] ∧
    discoverableGrants p =
      [Grant.parameterRead p.rpOriginParameterName,
       Grant.tableReadWriteData p.sessionTableName] :=
  ⟨rfl, rfl, rfl⟩

/-- C4, counterexample: at the concrete props `propsA` the discoverable
Lambda's environment does not supply the credential-store location (nor a
session TTL), refuting the claim that each ceremony Lambda's environment
supplies all four abstracted configuration items. -/
theorem discoverable_env_refutes_full_config :
    ¬ claimedSuppliesAbstractedConfig (discoverableEnvironment propsA) propsA := by
  unfold claimedSuppliesAbstractedConfig
  decide

/-- C4, amended: the registration Lambda's environment supplies the
session-store location, the credential-store location and the relying-party
origin location (exact keys: BASE_PATH, SESSION_TABLE_NAME, USER_POOL_ID,
CREDENTIAL_TABLE_NAME, RP_ORIGIN_PARAMETER_PATH); the discoverable Lambda's
environment supplies only the session-store and relying-party-origin
locations (exact keys: BASE_PATH, SESSION_TABLE_NAME,
RP_ORIGIN_PARAMETER_PATH); neither environment carries a session TTL or,
for the discoverable Lambda, the credential-store location. -/
theorem lambda_environment_contents (p : CredentialsApiProps) :
    claimedSuppliesAbstractedConfig (registrationEnvironment p) p ∧
    (registrationEnvironment p).map Prod.fst =
      ["BASE_PATH".toList, "SESSION_TABLE_NAME".toList, "USER_POOL_ID".toList,
       "CREDENTIAL_TABLE_NAME".toList, "RP_ORIGIN_PARAMETER_PATH".toList] ∧
    p.sessionTableName ∈ (discoverableEnvironment p).map Prod.snd ∧
    p.rpOriginParameterName ∈ (discoverableEnvironment p).map Prod.snd ∧
    (discoverableEnvironment p).map Prod.fst =
      ["BASE_PATH".toList, "SESSION_TABLE_NAME".toList, "RP_ORIGIN_PARAMETER_PATH".toList] := by
  refine ⟨⟨?_, ?_, ?_⟩, rfl, ?_, ?_, rfl⟩ <;>
    simp [registrationEnvironment, discoverableEnvironment]

/-- C6: only the registration ceremony touches the Identity Directory.  The
registration Lambda's environment carries the user-pool identifier and its
grants contain a user-pool grant whose actions are exactly {ListUsers,
AdminCreateUser, AdminSetUserPassword}; the discoverable Lambda's
environment has no user-pool identifier and its grants contain no
user-pool grant at all. -/
theorem registration_only_identity_directory_access (p : CredentialsApiProps) :
    lookupEnv (registrationEnvironment p) ("USER_POOL_ID".toList) = some p.userPoolId ∧
    (∃ acts, Grant.userPoolGrant p.userPoolId acts ∈ registrationGrants p ∧
      ∀ a, a ∈ acts ↔ (a = "cognito-idp:ListUsers".toList ∨
        a = "cognito-idp:AdminCreateUser".toList ∨
        a = "cognito-idp:AdminSetUserPassword".toList)) ∧
    lookupEnv (discoverableEnvironment p) ("USER_POOL_ID".toList) = none ∧
    (∀ poolId acts, Grant.userPoolGrant poolId acts ∉ discoverableGrants p) := by
  refine ⟨lookupEnv_registration_USER_POOL p,
    ⟨[ "cognito-idp:AdminCreateUser".toList,
       "cognito-idp:AdminSetUserPassword".toList,
       "cognito-idp:ListUsers".toList ], ?_, ?_⟩, rfl, ?_⟩
  · simp [registrationGrants]
  · intro a
    simp only [List.mem_cons, List.mem_singleton, List.not_mem_nil, or_false]
    tauto
  · intro poolId acts h
    simp [discoverableGrants] at h

/-- C6, witness: the theorem evaluated at the concrete props `propsA`. -/
theorem registration_only_identity_directory_access_witness :
    lookupEnv (registrationEnvironment propsA) ("USER_POOL_ID".toList) =
      some propsA.userPoolId ∧
    (∃ acts, Grant.userPoolGrant propsA.userPoolId acts ∈ registrationGrants propsA ∧
      ∀ a, a ∈ acts ↔ (a = "cognito-idp:ListUsers".toList ∨
        a = "cognito-idp:AdminCreateUser".toList ∨
        a = "cognito-idp:AdminSetUserPassword".toList)) ∧
    lookupEnv (discoverableEnvironment propsA) ("USER_POOL_ID".toList) = none ∧
    (∀ poolId acts, Grant.userPoolGrant poolId acts ∉ discoverableGrants propsA) :=
  registration_only_identity_directory_access propsA

/-- C7: every store and directory location placed in a Lambda environment is
exactly the corresponding injected props attribute, and two constructions
whose props differ in such an attribute produce different environment
values for the corresponding variable. -/
theorem env_locations_derived_from_props (p q : CredentialsApiProps) :
    lookupEnv (registrationEnvironment p) ("SESSION_TABLE_NAME".toList) =
      some p.sessionTableName ∧
    lookupEnv (registrationEnvironment p) ("CREDENTIAL_TABLE_NAME".toList) =
      some p.credentialTableName ∧
    lookupEnv (registrationEnvironment p) ("USER_POOL_ID".toList) = some p.userPoolId ∧
    lookupEnv (registrationEnvironment p) ("RP_ORIGIN_PARAMETER_PATH".toList) =
      some p.rpOriginParameterName ∧
    lookupEnv (discoverableEnvironment p) ("SESSION_TABLE_NAME".toList) =
      some p.sessionTableName ∧
    lookupEnv (discoverableEnvironment p) ("RP_ORIGIN_PARAMETER_PATH".toList) =
      some p.rpOriginParameterName ∧
    (p.sessionTableName ≠ q.sessionTableName →
      lookupEnv (registrationEnvironment p) ("SESSION_TABLE_NAME".toList) ≠
        lookupEnv (registrationEnvironment q) ("SESSION_TABLE_NAME".toList)) ∧
    (p.credentialTableName ≠ q.credentialTableName →
      lookupEnv (registrationEnvironment p) ("CREDENTIAL_TABLE_NAME".toList) ≠
        lookupEnv (registrationEnvironment q) ("CREDENTIAL_TABLE_NAME".toList)) ∧
    (p.userPoolId ≠ q.userPoolId →
      lookupEnv (registrationEnvironment p) ("USER_POOL_ID".toList) ≠
        lookupEnv (registrationEnvironment q) ("USER_POOL_ID".toList)) ∧
    (p.rpOriginParameterName ≠ q.rpOriginParameterName →
      lookupEnv (registrationEnvironment p) ("RP_ORIGIN_PARAMETER_PATH".toList) ≠
        lookupEnv (registrationEnvironment q) ("RP_ORIGIN_PARAMETER_PATH".toList)) ∧
    (p.sessionTableName ≠ q.sessionTableName →
      lookupEnv (discoverableEnvironment p) ("SESSION_TABLE_NAME".toList) ≠
        lookupEnv (discoverableEnvironment q) ("SESSION_TABLE_NAME".toList)) := by
  refine ⟨rfl, rfl, rfl, rfl, rfl, rfl, ?_, ?_, ?_, ?_, ?_⟩ <;>
  · intro h hc
    simp only [lookupEnv_registration_SESSION, lookupEnv_registration_CREDENTIAL,
      lookupEnv_registration_USER_POOL, lookupEnv_registration_RP_ORIGIN,
      lookupEnv_discoverable_SESSION] at hc
    exact h (Option.some.inj hc)

/-- C7, witness: the difference-propagation clauses evaluated at the two
concrete props records `propsA` and `propsB`, which differ in every store
and directory location. -/
theorem env_locations_derived_from_props_witness :
    lookupEnv (registrationEnvironment propsA) ("SESSION_TABLE_NAME".toList) ≠
      lookupEnv (registrationEnvironment propsB) ("SESSION_TABLE_NAME".toList) ∧
    lookupEnv (registrationEnvironment propsA) ("CREDENTIAL_TABLE_NAME".toList) ≠
      lookupEnv (registrationEnvironment propsB) ("CREDENTIAL_TABLE_NAME".toList) ∧
    lookupEnv (registrationEnvironment propsA) ("USER_POOL_ID".toList) ≠
      lookupEnv (registrationEnvironment propsB) ("USER_POOL_ID".toList) ∧
    lookupEnv (registrationEnvironment propsA) ("RP_ORIGIN_PARAMETER_PATH".toList) ≠
      lookupEnv (registrationEnvironment propsB) ("RP_ORIGIN_PARAMETER_PATH".toList) ∧
    lookupEnv (discoverableEnvironment propsA) ("SESSION_TABLE_NAME".toList) ≠
      lookupEnv (discoverableEnvironment propsB) ("SESSION_TABLE_NAME".toList) :=
  ⟨(env_locations_derived_from_props propsA propsB).2.2.2.2.2.2.1 (by decide),
   (env_locations_derived_from_props propsA propsB).2.2.2.2.2.2.2.1 (by decide),
   (env_locations_derived_from_props propsA propsB).2.2.2.2.2.2.2.2.1 (by decide),
   (env_locations_derived_from_props propsA propsB).2.2.2.2.2.2.2.2.2.1 (by decide),
   (env_locations_derived_from_props propsA propsB).2.2.2.2.2.2.2.2.2.2 (by decide)⟩

/-- C5: the HTTP API registers exactly two routes, both POST-only: a greedy
proxy route under `{base}/registration/` integrated with the registration
Lambda and a greedy proxy route under `{base}/discoverable/` integrated
with the discoverable Lambda; every non-empty path under one base matches
that base's route and not the other's. -/
theorem routes_post_only_and_targets (p : CredentialsApiProps) (suffix : Str)
    (hsuf : suffix ≠ []) :
    ∃ rr dr : Route, apiRoutes p = [rr, dr] ∧
      rr.integration = LambdaTarget.registration ∧
      dr.integration = LambdaTarget.discoverable ∧
      rr.methods = [HttpMethod.POST] ∧ dr.methods = [HttpMethod.POST] ∧
      proxyRouteMatches rr.path (registrationBasePath p ++ suffix) ∧
      proxyRouteMatches dr.path (discoverableBasePath p ++ suffix) ∧
      ¬ proxyRouteMatches dr.path (registrationBasePath p ++ suffix) ∧
      ¬ proxyRouteMatches rr.path (discoverableBasePath p ++ suffix) := by
  refine ⟨_, _, rfl, rfl, rfl, rfl, rfl,
    ⟨registrationBasePath p, suffix, hsuf, rfl, rfl⟩,
    ⟨discoverableBasePath p, suffix, hsuf, rfl, rfl⟩, ?_, ?_⟩
  · rintro ⟨b, suf, -, hroute, hreq⟩
    have hb : discoverableBasePath p = b := List.append_cancel_right hroute
    rw [← hb] at hreq
    simp only [registrationBasePath, discoverableBasePath, List.append_assoc] at hreq
    have hseg := (List.append_inj (List.append_cancel_left hreq) (by decide)).1
    exact absurd hseg (by decide)
  · rintro ⟨b, suf, -, hroute, hreq⟩
    have hb : registrationBasePath p = b := List.append_cancel_right hroute
    rw [← hb] at hreq
    simp only [registrationBasePath, discoverableBasePath, List.append_assoc] at hreq
    have hseg := (List.append_inj (List.append_cancel_left hreq) (by decide)).1
    exact absurd hseg (by decide)

/-- C5, witness: the theorem evaluated at `propsA` and the request suffix
`"start"`. -/
theorem routes_post_only_and_targets_witness :
    ∃ rr dr : Route, apiRoutes propsA = [rr, dr] ∧
      rr.integration = LambdaTarget.registration ∧
      dr.integration = LambdaTarget.discoverable ∧
      rr.methods = [HttpMethod.POST] ∧ dr.methods = [HttpMethod.POST] ∧
      proxyRouteMatches rr.path (registrationBasePath propsA ++ "start".toList) ∧
      proxyRouteMatches dr.path (discoverableBasePath propsA ++ "start".toList) ∧
      ¬ proxyRouteMatches dr.path (registrationBasePath propsA ++ "start".toList) ∧
      ¬ proxyRouteMatches rr.path (discoverableBasePath propsA ++ "start".toList) :=
  routes_post_only_and_targets propsA ("start".toList) (by decide)

/-- C8: a single trailing slash on the configured base path is irrelevant:
for a base path `b` not ending in `'/'`, constructing the API with `b` and
with `b ++ "/"` yields identical registration and discoverable route paths
and identical BASE_PATH environment values for both Lambdas. -/
theorem base_path_trailing_slash_insensitive (b : Str) (h : b.getLast? ≠ some '/')
    (p q : CredentialsApiProps) (hp : p.basePath = b) (hq : q.basePath = b ++ ['/']) :
    registrationBasePath p = registrationBasePath q ∧
    discoverableBasePath p = discoverableBasePath q ∧
    (apiRoutes p).map Route.path = (apiRoutes q).map Route.path ∧
    lookupEnv (registrationEnvironment p) ("BASE_PATH".toList) =
      lookupEnv (registrationEnvironment q) ("BASE_PATH".toList) ∧
    lookupEnv (discoverableEnvironment p) ("BASE_PATH".toList) =
      lookupEnv (discoverableEnvironment q) ("BASE_PATH".toList) := by
  have hb : stripTrailingSlash p.basePath = stripTrailingSlash q.basePath := by
    rw [hp, hq, stripTrailingSlash_concat, stripTrailingSlash_of_getLast?_ne b h]
  have hr : registrationBasePath p = registrationBasePath q := by
    simp [registrationBasePath, hb]
  have hd : discoverableBasePath p = discoverableBasePath q := by
    simp [discoverableBasePath, hb]
  refine ⟨hr, hd, ?_, ?_, ?_⟩
  · simp [apiRoutes, hr, hd]
  · rw [lookupEnv_registration_BASE, lookupEnv_registration_BASE, hr]
  · rw [lookupEnv_discoverable_BASE, lookupEnv_discoverable_BASE, hd]

/-- C8, witness: the theorem evaluated at the base path `"/auth"` via the
concrete props records `propsA` and `propsC`. -/
theorem base_path_trailing_slash_insensitive_witness :
    registrationBasePath propsA = registrationBasePath propsC ∧
    discoverableBasePath propsA = discoverableBasePath propsC ∧
    (apiRoutes propsA).map Route.path = (apiRoutes propsC).map Route.path ∧
    lookupEnv (registrationEnvironment propsA) ("BASE_PATH".toList) =
      lookupEnv (registrationEnvironment propsC) ("BASE_PATH".toList) ∧
    lookupEnv (discoverableEnvironment propsA) ("BASE_PATH".toList) =
      lookupEnv (discoverableEnvironment propsC) ("BASE_PATH".toList) :=
  base_path_trailing_slash_insensitive ("/auth".toList) (by decide)
    propsA propsC (by decide) (by decide)

/-- C9: the `basePath` getter removes exactly one trailing slash when one is
present; consequently a base path ending in two or more slashes still ends
in a slash after the getter. -/
theorem base_path_getter_strips_one_slash (p : CredentialsApiProps) (s : Str)
    (hs : p.basePath = s ++ ['/']) :
    basePathGetter p = s ∧
    (∀ t, s = t ++ ['/'] → (basePathGetter p).getLast? = some '/') := by
  have h1 : basePathGetter p = s := by
    rw [basePathGetter, hs, stripTrailingSlash_concat]
  refine ⟨h1, ?_⟩
  intro t ht
  rw [h1, ht]
  exact List.getLast?_concat t

/-- C9, witness: the getter evaluated on the base path `"/a//"`, which ends
in two slashes. -/
theorem base_path_getter_strips_one_slash_witness :
    basePathGetter propsDoubleSlash = "/a/".toList ∧
    (basePathGetter propsDoubleSlash).getLast? = some '/' :=
  ⟨(base_path_getter_strips_one_slash propsDoubleSlash ("/a/".toList) (by decide)).1,
   (base_path_getter_strips_one_slash propsDoubleSlash ("/a/".toList) (by decide)).2
     ("/a".toList) (by decide)⟩

/-- C10, counterexample: for the base path `"/"` (whose only slash is both
leading and trailing), the code strips that slash as the leading one, so
the trailing slash of `props.basePath` is not preserved in `internalUrl`;
with an empty stage URL the result ends in no slash at all. -/
theorem internal_url_root_slash_counterexample :
    propsRoot.basePath.getLast? = some '/' ∧
    (internalUrl [] propsRoot).getLast? ≠ some '/' := by
  decide

/-- C10, amended: `internalUrl` is the stage URL concatenated with
`props.basePath` stripped of exactly one leading slash; a trailing slash of
`props.basePath` is preserved whenever the base path has at least two
characters (for the one-character base path `"/"` the only slash is removed
as the leading one, unlike in the `basePath` getter, which removes the
trailing slash). -/
theorem internal_url_strips_one_leading_slash (stageUrl : Str) (p : CredentialsApiProps) :
    (p.basePath = [] → internalUrl stageUrl p = stageUrl) ∧
    (∀ s, p.basePath = '/' :: s → internalUrl stageUrl p = stageUrl ++ s) ∧
    (∀ c s, p.basePath = c :: s → c ≠ '/' → internalUrl stageUrl p = stageUrl ++ c :: s) ∧
    (∀ c s, p.basePath = c :: s → s.getLast? = some '/' →
      (internalUrl stageUrl p).getLast? = some '/') := by
  refine ⟨?_, ?_, ?_, ?_⟩
  · intro h
    simp [internalUrl, stripLeadingSlash, h]
  · intro s h
    simp [internalUrl, stripLeadingSlash, h]
  · intro c s h hc
    simp [internalUrl, stripLeadingSlash, h, hc]
  · intro c s h hl
    have hs : s ≠ [] := by
      rintro rfl
      simp at hl
    by_cases hc : c = '/'
    · subst hc
      have he : internalUrl stageUrl p = stageUrl ++ s := by
        simp [internalUrl, stripLeadingSlash, h]
      rw [he, List.getLast?_append_of_ne_nil stageUrl hs]
      exact hl
    · simp only [internalUrl, stripLeadingSlash, h, if_neg hc]
      rw [show (c :: s : Str) = [c] ++ s from rfl, ← List.append_assoc,
        List.getLast?_append_of_ne_nil (stageUrl ++ [c]) hs]
      exact hl

/-- C10, witness: the amended theorem evaluated at a concrete stage URL and
the base path `"/app/"`. -/
theorem internal_url_strips_one_leading_slash_witness :
    internalUrl ("https://x/".toList) propsApp = "https://x/".toList ++ "app/".toList ∧
    (internalUrl ("https://x/".toList) propsApp).getLast? = some '/' :=
  ⟨(internal_url_strips_one_leading_slash ("https://x/".toList) propsApp).2.1
      ("app/".toList) (by decide),
   (internal_url_strips_one_leading_slash ("https://x/".toList) propsApp).2.2.2
      '/' ("app/".toList) (by decide) (by decide)⟩

/-! ## Claims about the ceremony core (spec-modelled) -/

theorem findSession_setSession (tbl : List Session) (id : Nat) (s₀ s' : Session)
    (hf : findSession tbl id = some s₀) (hid : s'.id = id) :
    findSession (setSession tbl id s') id = some s' := by
  induction tbl with
  | nil => simp [findSession] at hf
  | cons a rest ih =>
    by_cases ha : a.id = id
    · have h1 : setSession (a :: rest) id s' = s' :: setSession rest id s' := by
        simp [setSession, ha]
      unfold findSession
      rw [h1, List.find?_cons_of_pos _ (by simp [hid])]
    · have h1 : setSession (a :: rest) id s' = a :: setSession rest id s' := by
        simp [setSession, ha]
      have hf' : findSession rest id = some s₀ := by
        unfold findSession at hf
        rwa [List.find?_cons_of_neg _ (by simp [ha])] at hf
      unfold findSession at ih ⊢
      rw [h1, List.find?_cons_of_neg _ (by simp [ha])]
      exact ih hf'

/-- C1 (spec-modelled): `consume` succeeds at most once per session id.
After one successful `consume`, every further `consume` of the same id — at
any later (or earlier) clock value — fails with `SessionAlreadyConsumed`
and leaves the table unchanged, and the stored session's state remains
`Consumed`. -/
theorem consume_succeeds_at_most_once (tbl : List Session) (now id : Nat)
    (s : Session) (tbl' : List Session)
    (h : consume tbl now id = (Except.ok s, tbl')) :
    (∀ now', consume tbl' now' id =
      (Except.error SessionError.SessionAlreadyConsumed, tbl')) ∧
    ∃ s', findSession tbl' id = some s' ∧ s'.state = SessionState.Consumed := by
  cases hf : findSession tbl id with
  | none =>
    have key : consume tbl now id = (Except.error SessionError.SessionNotFound, tbl) := by
      unfold consume; rw [hf]
    rw [key] at h
    simp at h
  | some s₀ =>
    have key : consume tbl now id =
        if s₀.state = SessionState.Consumed then
          (Except.error SessionError.SessionAlreadyConsumed, tbl)
        else if s₀.expiresAt ≤ now then
          (Except.error SessionError.SessionExpired, tbl)
        else
          (Except.ok { s₀ with state := SessionState.Consumed },
            setSession tbl id { s₀ with state := SessionState.Consumed }) := by
      unfold consume; rw [hf]
    rw [key] at h
    by_cases hcons : s₀.state = SessionState.Consumed
    · rw [if_pos hcons] at h; simp at h
    · rw [if_neg hcons] at h
      by_cases hexp : s₀.expiresAt ≤ now
      · rw [if_pos hexp] at h; simp at h
      · rw [if_neg hexp] at h
        simp only [Prod.mk.injEq] at h
        obtain ⟨-, htbl⟩ := h
        subst htbl
        have hid0 : s₀.id = id := by
          have := List.find?_some hf
          simpa using this
        have hfind : findSession (setSession tbl id { s₀ with state := SessionState.Consumed }) id
            = some { s₀ with state := SessionState.Consumed } :=
          findSession_setSession tbl id s₀ _ hf hid0
        refine ⟨?_, ⟨_, hfind, rfl⟩⟩
        intro now'
        have key2 : consume (setSession tbl id { s₀ with state := SessionState.Consumed }) now' id =
            (Except.error SessionError.SessionAlreadyConsumed,
              setSession tbl id { s₀ with state := SessionState.Consumed }) := by
          unfold consume; rw [hfind]; rfl
        exact key2

/-- C1, witness: a pending session with id 1 is consumed once at clock 0;
afterwards every further `consume` of id 1 fails `SessionAlreadyConsumed`
and the stored state stays `Consumed`. -/
theorem consume_succeeds_at_most_once_witness :
    (∀ now', consume [⟨1, 42, none, 0, 100, SessionState.Consumed⟩] now' 1 =
      (Except.error SessionError.SessionAlreadyConsumed,
        [⟨1, 42, none, 0, 100, SessionState.Consumed⟩])) ∧
    ∃ s', findSession [⟨1, 42, none, 0, 100, SessionState.Consumed⟩] 1 = some s' ∧
      s'.state = SessionState.Consumed :=
  consume_succeeds_at_most_once [⟨1, 42, none, 0, 100, SessionState.Pending⟩] 0 1
    ⟨1, 42, none, 0, 100, SessionState.Consumed⟩
    [⟨1, 42, none, 0, 100, SessionState.Consumed⟩] rfl

/-- C2 (spec-modelled): `update_sign_count(c.id, n)` succeeds exactly when
`n > c.sign_count` or both counters are `0`; in every other case it fails
with `StaleSignCount` and leaves the stored table unchanged. -/
theorem update_sign_count_succeeds_iff (tbl : List Credential) (id n : Nat)
    (c : Credential) (hc : findCredential tbl id = some c) :
    ((updateSignCount tbl id n).1 = Except.ok () ↔
      (c.signCount < n ∨ (n = 0 ∧ c.signCount = 0))) ∧
    ((updateSignCount tbl id n).1 ≠ Except.ok () →
      (updateSignCount tbl id n).1 = Except.error CredentialError.StaleSignCount ∧
      (updateSignCount tbl id n).2 = tbl) := by
  have key : updateSignCount tbl id n =
      if n ≤ c.signCount ∧ ¬(n = 0 ∧ c.signCount = 0) then
        (Except.error CredentialError.StaleSignCount, tbl)
      else
        (Except.ok (), tbl.map (fun x =>
          if x.credentialId == id then { x with signCount := n } else x)) := by
    unfold updateSignCount; rw [hc]
  rw [key]
  by_cases hcond : n ≤ c.signCount ∧ ¬(n = 0 ∧ c.signCount = 0)
  · rw [if_pos hcond]
    refine ⟨?_, fun _ => ⟨rfl, rfl⟩⟩
    constructor
    · intro he
      exact absurd he (by simp)
    · intro hr
      omega
  · rw [if_neg hcond]
    refine ⟨?_, fun hne => absurd rfl hne⟩
    constructor
    · intro _
      omega
    · intro _
      rfl

/-- C2, witness: replaying the same counter value 5 against a stored
credential whose sign count is 4 succeeds, while the iff's failure side is
exercised by the hypothesis-free evaluation of the same theorem. -/
theorem update_sign_count_succeeds_iff_witness :
    ((updateSignCount [⟨5, 7, 9, 4⟩] 5 5).1 = Except.ok () ↔
      ((⟨5, 7, 9, 4⟩ : Credential).signCount < 5 ∨
        (5 = 0 ∧ (⟨5, 7, 9, 4⟩ : Credential).signCount = 0))) ∧
    ((updateSignCount [⟨5, 7, 9, 4⟩] 5 5).1 ≠ Except.ok () →
      (updateSignCount [⟨5, 7, 9, 4⟩] 5 5).1 = Except.error CredentialError.StaleSignCount ∧
      (updateSignCount [⟨5, 7, 9, 4⟩] 5 5).2 = [⟨5, 7, 9, 4⟩]) :=
  update_sign_count_succeeds_iff [⟨5, 7, 9, 4⟩] 5 5 ⟨5, 7, 9, 4⟩ rfl
